import Mathlib

/-! # Scraper (`allUrl.go`): a verification development

The program is a small concurrent crawler written against the `colly` collector:

* `WorkerFunction` registers a callback on every `a` element which filters the absolute
  form of the link by the scope prefix, looks it up in `visited_links` and sends the new
  ones on `UrlChannel`;
* `emailFinder` registers a callback on the `body` element which prints the matches of the
  e-mail pattern;
* `createWorkers` starts `num_of_workers` goroutines receiving from `UrlChannel`;
* `execute` visits the base URL and then starts a goroutine which waits on `wait_group`
  and closes `UrlChannel`; `main` waits on `wait_group` too and prints the last line.

Go strings are modelled as lists of characters (`GoString`).  The two callbacks are first
given as functions on the data they read and write (the sequential reading, one callback
after another); the scheduler is given afterwards as a labelled step function in which
every Go statement of `allUrl.go` that touches shared data is one step.
-/

namespace Scraper

/-! ## Strings -/

/-- A Go string, as the list of its characters. -/
abbrev GoString := List Char

/-- The prefix tested on line 74: the literal `"https://www.w3.org/staff/"`. -/
def scopePrefix : GoString := "https://www.w3.org/staff/".toList

/-- Go `strings.HasPrefix(s, prefix)`. -/
def HasPrefix (s pre : GoString) : Bool := pre.isPrefixOf s

/-- The condition of line 74:
`len(absolute) != 0 && strings.HasPrefix(absolute, "https://www.w3.org/staff/")`. -/
def inScope (absolute : GoString) : Bool :=
  (absolute.length != 0) && HasPrefix absolute scopePrefix

/-! ## The link callback of `WorkerFunction`, one call after another -/

/-- The data the link callback reads and writes.

* `visited_links` is the Go `map[string]bool`; a key that is absent reads as `false`.
* `UrlChannel` is the sequence of values sent on the channel, oldest first.  What the
  receivers have taken out of it, and the capacity of its buffer, are the business of the
  scheduler (`Sys` below): a send that finds the buffer full waits for a receiver, it is
  not lost.
* `stdout` is the sequence of lines printed. -/
structure CrawlState where
  visited_links : GoString → Bool
  UrlChannel : List GoString
  stdout : List GoString

/-- The Go statement `visited_links[absolute] = true`. -/
def mapSet (m : GoString → Bool) (key : GoString) : GoString → Bool :=
  fun k => if k = key then true else m k

/-- The line printed on the else branch of line 74 (line 80). -/
def someErrorLine : GoString := "Some error occured".toList

/-- The function registered by `WorkerFunction` on `a` elements (lines 70-82), applied to
the value of `absolute`, that is to `h.Request.AbsoluteURL(h.Attr("href"))`. -/
def WorkerFunction.onHTML (s : CrawlState) (absolute : GoString) : CrawlState :=
  if inScope absolute then
    if !s.visited_links absolute then
      { s with visited_links := mapSet s.visited_links absolute,
               UrlChannel := s.UrlChannel ++ [absolute] }
    else s
  else
    { s with stdout := s.stdout ++ [someErrorLine] }

/-- The callback run on a sequence of discovered links, one call after another. -/
def feedLinks (s : CrawlState) (links : List GoString) : CrawlState :=
  links.foldl WorkerFunction.onHTML s

/-- The state in which `execute` registers the callback: `make(map[string]bool)`, nothing
sent, nothing printed. -/
def CrawlState.empty : CrawlState :=
  { visited_links := fun _ => false, UrlChannel := [], stdout := [] }

/-! ## The e-mail pattern of `emailFinder`

`regexp.MustCompile` and `FindAllString` belong to the Go library.  The pattern of line 42
is a sequence of five pieces, each a literal character or a character class repeated
greedily, so the library is modelled for such sequences: a backtracking matcher, which
finds the match Go documents ("the one that a backtracking search would have found
first"), and the scan of `FindAllString`, which takes the leftmost match, then continues
after its end. -/

/-- The classes `a-z` and `A-Z`. -/
def isLetter (c : Char) : Bool :=
  ('a' ≤ c && c ≤ 'z') || ('A' ≤ c && c ≤ 'Z')

/-- The class `0-9`. -/
def isDigit (c : Char) : Bool := '0' ≤ c && c ≤ '9'

/-- The class `[a-zA-Z0-9._%+-]`. -/
def localClass (c : Char) : Bool :=
  isLetter c || isDigit c || c == '.' || c == '_' || c == '%' || c == '+' || c == '-'

/-- The class `[a-zA-Z0-9.-]`. -/
def domainClass (c : Char) : Bool :=
  isLetter c || isDigit c || c == '.' || c == '-'

/-- One piece of a pattern: a literal character, or a class repeated `min` times or more,
as many times as possible (`+` is `rep cls 1`, `{2,}` is `rep cls 2`). -/
inductive Piece where
  | lit (c : Char)
  | rep (cls : Char → Bool) (min : Nat)

/-- The pattern of line 42, `[a-zA-Z0-9._%+-]+@[a-zA-Z0-9.-]+\.[a-zA-Z]{2,}`. -/
def emailRegExp : List Piece :=
  [Piece.rep localClass 1, Piece.lit '@', Piece.rep domainClass 1, Piece.lit '.',
   Piece.rep isLetter 2]

/-- A greedy repetition followed by the rest of the pattern `k`: take one more character
of the class when that leads to a match, otherwise stop here if `min` characters have been
taken.  The result is what is left of the input after the match. -/
def repGreedy (cls : Char → Bool) (k : GoString → Option GoString) :
    Nat → GoString → Option GoString
  | min, [] => if min = 0 then k [] else none
  | min, c :: cs =>
    if cls c then
      match repGreedy cls k (min - 1) cs with
      | some rest => some rest
      | none => if min = 0 then k (c :: cs) else none
    else if min = 0 then k (c :: cs) else none

/-- The match of a pattern at the very start of the input: what is left of the input after
the preferred match, or `none`. -/
def matchHere : List Piece → GoString → Option GoString
  | [], s => some s
  | Piece.lit c :: ps, s =>
    match s with
    | [] => none
    | x :: xs => if x = c then matchHere ps xs else none
  | Piece.rep cls min :: ps, s => repGreedy cls (matchHere ps) min s

/-- The scan of `FindAllString` over the rest of the text; `skip` counts the characters
still covered by the match found last. -/
def findAllFrom (re : List Piece) : Nat → GoString → List GoString
  | _, [] => []
  | skip + 1, _ :: cs => findAllFrom re skip cs
  | 0, c :: cs =>
    match matchHere re (c :: cs) with
    | some rest =>
      let m := (c :: cs).take ((c :: cs).length - rest.length)
      m :: findAllFrom re (m.length - 1) cs
    | none => findAllFrom re 0 cs

/-- Go `re.FindAllString(s, -1)`: the successive non-overlapping matches, leftmost first. -/
def FindAllString (re : List Piece) (s : GoString) : List GoString :=
  findAllFrom re 0 s

/-- The header printed on line 46: `"Emails Found: "`, the colon followed by a blank. -/
def emailsFoundLine : GoString := "Emails Found: ".toList

/-- The function registered by `emailFinder` on the `body` element (lines 40-51), applied
to `h.Text`; it returns the printed lines with the new ones appended. -/
def emailFinder.onHTML (stdout : List GoString) (page_text : GoString) : List GoString :=
  let email_list := FindAllString emailRegExp page_text
  if email_list.length > 0 then
    stdout ++ emailsFoundLine :: email_list
  else stdout

/-! ## The collector

`colly` is a library; the program depends on it for three things only, which are taken
here as data: what a request to a URL delivers, in which order the registered functions
are called on it (in the order of registration: the `a` function of `WorkerFunction` on
every anchor in document order, then the `body` function of `emailFinder`), and whether
`Visit` makes a request to a URL it has requested before. -/

/-- What a request delivers to the registered functions: the absolute forms of the `href`
of the anchors, in document order (`""` where `AbsoluteURL` gives none), and the text of
the `body` element. -/
structure Page where
  links : List GoString
  text : GoString

/-- The collector: `web url` is the page a request to `url` delivers (`none` when the
request fails, in which case no registered function is called); `AllowURLRevisit` is the
collector's field of that name (`false` in a collector made by `colly.NewCollector()`
without options: `Visit` then returns an error for a URL requested before, and makes no
request). -/
structure Collector where
  web : GoString → Option Page
  AllowURLRevisit : Bool

/-! ## The scheduler

One step of the system is one Go statement of one goroutine: the statements of the `a`
function (lines 72-80) are steps of their own, since other goroutines may run between
them; the request made by `c.Visit` is one step, and so is the whole `body` function of
`emailFinder`, which touches nothing but the output.  The goroutines are `main` (which
runs `execute` and then lines 142-143), the goroutine started on line 130 and the
goroutines started by `createWorkers`.  A goroutine that cannot move (a receive on the
empty open channel, a send on the full one, a `Wait` on a counter that is not zero) has no
step. -/

/-- Where a call `c.Visit(url)` stands.  `todo` holds the anchors the `a` function has
still to be called on, `text` the text kept for the `body` function. -/
inductive VisitPc where
  /-- `c.Visit(url)` has been called, no request made yet. -/
  | request (url : GoString)
  /-- Between two calls of the registered functions. -/
  | anchors (todo : List GoString) (text : GoString)
  /-- Inside the `a` function, `absolute` assigned (line 72), before the test of line 74. -/
  | line74 (todo : List GoString) (text : GoString)
  /-- Before the test of line 75. -/
  | line75 (todo : List GoString) (text : GoString)
  /-- Before the assignment of line 76. -/
  | line76 (todo : List GoString) (text : GoString)
  /-- Before the send of line 77. -/
  | line77 (todo : List GoString) (text : GoString)
  /-- Before the print of line 80. -/
  | line80 (todo : List GoString) (text : GoString)
  /-- The call `c.Visit(url)` has returned. -/
  | returned
  deriving DecidableEq

/-- Where a goroutine of `createWorkers` stands (lines 98-102, and `scrapeUrl`). -/
inductive WorkerPc where
  /-- At `for url := range UrlChannel`, waiting to receive. -/
  | recv
  /-- Before `wait_group.Add(1)` (line 99). -/
  | add (url : GoString)
  /-- Before `fmt.Println(url)` (line 100). -/
  | println (url : GoString)
  /-- Inside `scrapeUrl`: in `c.Visit(url)` (line 26); once the call has returned, before
  the deferred `wait_group.Done()` (line 25). -/
  | scrape (v : VisitPc)
  /-- The channel was closed and empty: the loop and the goroutine have ended. -/
  | exited
  deriving DecidableEq

/-- Where `main` stands. -/
inductive MainPc where
  /-- Inside `c.Visit(base_url)` (line 128); once the call has returned, before the `go`
  statement of line 130. -/
  | visit (v : VisitPc)
  /-- At `wait_group.Wait()` (line 142). -/
  | wait
  /-- Before `fmt.Println("Completed all tasks")` (line 143). -/
  | println
  /-- The function `main` has returned: the program has ended. -/
  | exited
  deriving DecidableEq

/-- Where the goroutine of lines 130-133 stands. -/
inductive WatcherPc where
  /-- The `go` statement has not been executed. -/
  | notStarted
  /-- At `wait_group.Wait()` (line 131). -/
  | wait
  /-- Before `close(UrlChannel)` (line 132). -/
  | close
  /-- The goroutine has ended. -/
  | exited
  deriving DecidableEq

/-- The goroutines. -/
inductive Thread where
  | main
  | watcher
  | worker (i : Nat)
  deriving DecidableEq

/-- The state of the running program.

* `fetched`: the URLs requested so far, in order (the collector's record of them).
* `visited_links`, `stdout`: as in `CrawlState`.
* `absolute`: the variable declared on line 69, outside the function registered on line
  70, hence one variable for all calls of that function.
* `UrlChannel`, `closed`: the content of the channel's buffer, oldest first, and whether
  `close` has been executed.
* `wait_group`: the counter of the `sync.WaitGroup`.
* `panicked`: a run-time panic (a send on the closed channel, a second `close`) has ended
  the program; what the program prints while it dies is not part of the state. -/
structure Sys where
  c : Collector
  fetched : List GoString
  visited_links : GoString → Bool
  absolute : GoString
  UrlChannel : List GoString
  closed : Bool
  wait_group : Int
  stdout : List GoString
  panicked : Bool
  main : MainPc
  watcher : WatcherPc
  workers : List WorkerPc

/-- The global `num_of_workers` (line 11). -/
def num_of_workers : Nat := 12

/-- The capacity given to `make(chan string, 100)` on line 122. -/
def channelCapacity : Nat := 100

/-- The line printed on line 143. -/
def completedLine : GoString := "Completed all tasks".toList

/-- The state in which `execute` reaches line 128: map and channel made (lines 121-122),
the two functions registered (lines 125-126), `n` goroutines started by `createWorkers`
(line 127; `n` is `num_of_workers`), each at the head of its loop. -/
def Sys.init (c : Collector) (base_url : GoString) (n : Nat) : Sys :=
  { c := c, fetched := [], visited_links := fun _ => false, absolute := [],
    UrlChannel := [], closed := false, wait_group := 0, stdout := [], panicked := false,
    main := MainPc.visit (VisitPc.request base_url), watcher := WatcherPc.notStarted,
    workers := List.replicate n WorkerPc.recv }

/-- One step inside `c.Visit`, by whichever goroutine called it; `none` when the goroutine
cannot move (a send on a full channel, or a call that has returned). -/
def stepVisit (s : Sys) : VisitPc → Option (Sys × VisitPc)
  | VisitPc.request url =>
    if !s.c.AllowURLRevisit && s.fetched.contains url then some (s, VisitPc.returned)
    else
      match s.c.web url with
      | none => some ({ s with fetched := s.fetched ++ [url] }, VisitPc.returned)
      | some p =>
        some ({ s with fetched := s.fetched ++ [url] }, VisitPc.anchors p.links p.text)
  | VisitPc.anchors [] text =>
    some ({ s with stdout := emailFinder.onHTML s.stdout text }, VisitPc.returned)
  | VisitPc.anchors (link :: todo) text =>
    some ({ s with absolute := link }, VisitPc.line74 todo text)
  | VisitPc.line74 todo text =>
    if inScope s.absolute then some (s, VisitPc.line75 todo text)
    else some (s, VisitPc.line80 todo text)
  | VisitPc.line75 todo text =>
    if !s.visited_links s.absolute then some (s, VisitPc.line76 todo text)
    else some (s, VisitPc.anchors todo text)
  | VisitPc.line76 todo text =>
    some ({ s with visited_links := mapSet s.visited_links s.absolute },
      VisitPc.line77 todo text)
  | VisitPc.line77 todo text =>
    if s.closed then some ({ s with panicked := true }, VisitPc.line77 todo text)
    else if s.UrlChannel.length < channelCapacity then
      some ({ s with UrlChannel := s.UrlChannel ++ [s.absolute] }, VisitPc.anchors todo text)
    else none
  | VisitPc.line80 todo text =>
    some ({ s with stdout := s.stdout ++ [someErrorLine] }, VisitPc.anchors todo text)
  | VisitPc.returned => none

/-- One step of `main`. -/
def stepMain (s : Sys) : Option Sys :=
  match s.main with
  | MainPc.visit VisitPc.returned =>
    some { s with watcher := WatcherPc.wait, main := MainPc.wait }
  | MainPc.visit v =>
    (stepVisit s v).map fun r => { r.1 with main := MainPc.visit r.2 }
  | MainPc.wait => if s.wait_group = 0 then some { s with main := MainPc.println } else none
  | MainPc.println =>
    some { s with stdout := s.stdout ++ [completedLine], main := MainPc.exited }
  | MainPc.exited => none

/-- One step of the goroutine of lines 130-133. -/
def stepWatcher (s : Sys) : Option Sys :=
  match s.watcher with
  | WatcherPc.notStarted => none
  | WatcherPc.wait =>
    if s.wait_group = 0 then some { s with watcher := WatcherPc.close } else none
  | WatcherPc.close =>
    if s.closed then some { s with panicked := true }
    else some { s with closed := true, watcher := WatcherPc.exited }
  | WatcherPc.exited => none

/-- One step of the `i`-th goroutine of `createWorkers`. -/
def stepWorker (s : Sys) (i : Nat) : Option Sys :=
  match s.workers[i]? with
  | none => none
  | some WorkerPc.recv =>
    match s.UrlChannel with
    | url :: rest =>
      some { s with UrlChannel := rest, workers := s.workers.set i (WorkerPc.add url) }
    | [] =>
      if s.closed then some { s with workers := s.workers.set i WorkerPc.exited } else none
  | some (WorkerPc.add url) =>
    some { s with wait_group := s.wait_group + 1,
                  workers := s.workers.set i (WorkerPc.println url) }
  | some (WorkerPc.println url) =>
    some { s with stdout := s.stdout ++ [url],
                  workers := s.workers.set i (WorkerPc.scrape (VisitPc.request url)) }
  | some (WorkerPc.scrape VisitPc.returned) =>
    some { s with wait_group := s.wait_group - 1,
                  workers := s.workers.set i WorkerPc.recv }
  | some (WorkerPc.scrape v) =>
    (stepVisit s v).map fun r =>
      { r.1 with workers := r.1.workers.set i (WorkerPc.scrape r.2) }
  | some WorkerPc.exited => none

/-- One step of the goroutine `t`; `none` when `t` cannot move, or when the program has
ended (`main` has returned, or a panic). -/
def step (s : Sys) (t : Thread) : Option Sys :=
  if s.panicked || s.main = MainPc.exited then none
  else
    match t with
    | Thread.main => stepMain s
    | Thread.watcher => stepWatcher s
    | Thread.worker i => stepWorker s i

/-- The scheduler gives the next step to `t`; nothing happens when `t` cannot move. -/
def next (s : Sys) (t : Thread) : Sys := (step s t).getD s

/-- The state after the schedule `sched`, the list of the goroutines chosen in turn. -/
def run (s : Sys) (sched : List Thread) : Sys := sched.foldl next s

/-! ## The end-to-end scenario -/

/-- The seed of `main` (line 137). -/
def base_url : GoString := "https://www.w3.org/staff/".toList

/-- An in-scope page `B`. -/
def pageB : GoString := "https://www.w3.org/staff/b".toList

/-- An out-of-scope URL `C`. -/
def urlC : GoString := "https://other.org/c".toList

/-- The web of the scenario: the seed links to `B` and to `C` and has the text
`mail me at foo@bar.com`; `B` links back to the seed and has no e-mail text. -/
def scenarioWeb (url : GoString) : Option Page :=
  if url = base_url then some { links := [pageB, urlC], text := "mail me at foo@bar.com".toList }
  else if url = pageB then some { links := [base_url], text := "page b".toList }
  else none

/-- The collector of the scenario. -/
def scenario (revisit : Bool) : Collector :=
  { web := scenarioWeb, AllowURLRevisit := revisit }

/-- The schedule of the scenario run with one worker, one goroutine after the other:
`main` visits the seed (10 steps), the worker runs until the channel is empty, then `main`
starts the goroutine of line 130, which waits and closes the channel, the worker leaves
its loop, and `main` waits and prints the last line. -/
def sequentialSchedule : List Thread :=
  List.replicate 10 Thread.main ++ List.replicate 40 (Thread.worker 0) ++
    [Thread.main, Thread.watcher, Thread.watcher, Thread.worker 0, Thread.main, Thread.main]

/-- The start of `sequentialSchedule`: the seed visit, then the worker receives `B`,
registers it, prints it and visits it, up to the end of the `a` function on the link of
`B` back to the seed (9 steps). -/
def seedThenB : List Thread :=
  List.replicate 10 Thread.main ++ List.replicate 9 (Thread.worker 0)

/-- A schedule in which no worker is given a step before the program ends: `main` visits
the seed (10 steps) and executes the `go` statement, the goroutine of line 130 waits and
closes the channel, `main` waits and prints the last line. -/
def earlyCloseSchedule : List Thread :=
  List.replicate 11 Thread.main ++
    [Thread.watcher, Thread.watcher, Thread.main, Thread.main]

/-- A schedule in which a worker has received `B` but not yet executed `Add(1)` when the
goroutine of line 130 waits and closes the channel; the worker then visits `B` and reaches
the send of line 77. -/
def sendAfterCloseSchedule : List Thread :=
  List.replicate 10 Thread.main ++
    [Thread.worker 0, Thread.main, Thread.watcher, Thread.watcher] ++
    List.replicate 9 (Thread.worker 0)

/-- Another in-scope page. -/
def pageD : GoString := "https://www.w3.org/staff/d".toList

/-- An in-scope page to which two pages link. -/
def pageU : GoString := "https://www.w3.org/staff/u".toList

/-- A web in which the seed links to `B` and to `D`, and both `B` and `D` link to `U`. -/
def raceWeb (url : GoString) : Option Page :=
  if url = base_url then some { links := [pageB, pageD], text := [] }
  else if url = pageB then some { links := [pageU], text := [] }
  else if url = pageD then some { links := [pageU], text := [] }
  else if url = pageU then some { links := [], text := [] }
  else none

/-- A collector on `raceWeb`. -/
def raceCollector (revisit : Bool) : Collector :=
  { web := raceWeb, AllowURLRevisit := revisit }

/-- A schedule in which two workers run the `a` function on the same link at the same
time: `main` visits the seed (12 steps); worker 0 receives `B` and worker 1 receives `D`,
and each goes on up to and including the test of line 75 on the link to `U` (7 steps
each); then worker 0 executes lines 76 and 77, and worker 1 does. -/
def raceSchedule : List Thread :=
  List.replicate 12 Thread.main ++
    List.replicate 7 (Thread.worker 0) ++ List.replicate 7 (Thread.worker 1) ++
    [Thread.worker 0, Thread.worker 0, Thread.worker 1, Thread.worker 1]

/-- The schedule `raceSchedule` continued: both workers end their visit and execute
`Done()` (2 steps each), then each receives from the channel, executes `Add(1)`, prints
the URL and makes the request (4 steps each). -/
def raceDispatch : List Thread :=
  raceSchedule ++
    [Thread.worker 0, Thread.worker 0, Thread.worker 1, Thread.worker 1] ++
    List.replicate 4 (Thread.worker 0) ++ List.replicate 4 (Thread.worker 1)

/-- The part of the state that the two registered functions read and write. -/
def Sys.crawl (s : Sys) : CrawlState :=
  { visited_links := s.visited_links, UrlChannel := s.UrlChannel, stdout := s.stdout }

/-- The next `n` steps inside `c.Visit` taken by one goroutine with no step of another
goroutine in between; `none` when one of them cannot be taken. -/
def visitSteps : Nat → Sys → VisitPc → Option (Sys × VisitPc)
  | 0, s, v => some (s, v)
  | n + 1, s, v => (stepVisit s v).bind fun r => visitSteps n r.1 r.2

/-- A web in which the seed links to `B` and to `D`, `B` links to the in-scope page `U`
and `D` links to the out-of-scope URL `C`. -/
def mixedWeb (url : GoString) : Option Page :=
  if url = base_url then some { links := [pageB, pageD], text := [] }
  else if url = pageB then some { links := [pageU], text := [] }
  else if url = pageD then some { links := [urlC], text := [] }
  else none

/-- A schedule on `mixedWeb`: `main` visits the seed (12 steps); worker 0 receives `B` and
goes on up to and including the test of line 75 on the link to `U` (7 steps); worker 1
receives `D` and goes on up to and including the assignment of line 72 on the link to `C`
(5 steps); then worker 0 executes lines 76 and 77. -/
def sharedVariableSchedule : List Thread :=
  List.replicate 12 Thread.main ++
    List.replicate 7 (Thread.worker 0) ++ List.replicate 5 (Thread.worker 1) ++
    [Thread.worker 0, Thread.worker 0]

/-- The schedule `sharedVariableSchedule` continued: worker 2 receives from the channel,
executes `Add(1)`, prints the URL and makes the request (4 steps). -/
def sharedVariableDispatch : List Thread :=
  sharedVariableSchedule ++ List.replicate 4 (Thread.worker 2)

/-! ## What is stated of the matches -/

/-- The text made of `gaps` and `matches` in turn, starting and ending with a gap:
`g₀ ++ m₁ ++ g₁ ++ ... ++ mₖ ++ gₖ`. -/
def weave : List GoString → List GoString → GoString
  | g :: gs, m :: ms => g ++ m ++ weave gs ms
  | g :: _, [] => g
  | [], _ => []

/-- The shape of an address: a non-empty local part over `[a-zA-Z0-9._%+-]`, an `@`, a
non-empty part over `[a-zA-Z0-9.-]`, a dot, two letters or more. -/
def EmailShape (m : GoString) : Prop :=
  ∃ l d t : GoString, m = l ++ '@' :: (d ++ '.' :: t) ∧
    l ≠ [] ∧ (∀ c ∈ l, localClass c = true) ∧
    d ≠ [] ∧ (∀ c ∈ d, domainClass c = true) ∧
    2 ≤ t.length ∧ (∀ c ∈ t, isLetter c = true)

/-! ## What is stated of the scheduler -/

/-- A goroutine of `createWorkers` that has executed `wait_group.Add(1)` (line 99) and not
yet the `wait_group.Done()` of `scrapeUrl` (line 25). -/
def WorkerPc.inFlight : WorkerPc → Bool
  | WorkerPc.println _ => true
  | WorkerPc.scrape _ => true
  | _ => false

/-- The number of goroutines of `createWorkers` between their `Add` and their `Done`. -/
def Sys.inFlight (s : Sys) : Nat := s.workers.countP WorkerPc.inFlight

/-! # Theorems -/

/-! ## The link callback -/

theorem inScope_iff (u : GoString) : inScope u = true ↔ u ≠ [] ∧ scopePrefix <+: u := by
  simp [inScope, HasPrefix, List.isPrefixOf_iff_prefix]

theorem onHTML_channel (s : CrawlState) (u : GoString) :
    (WorkerFunction.onHTML s u).UrlChannel
      = s.UrlChannel ++ (if inScope u = true ∧ s.visited_links u = false then [u] else []) := by
  unfold WorkerFunction.onHTML
  by_cases h : inScope u = true <;> cases hv : s.visited_links u <;> simp [h, hv]

theorem onHTML_visited (s : CrawlState) (u k : GoString) :
    (WorkerFunction.onHTML s u).visited_links k
      = (s.visited_links k || (inScope u && decide (k = u))) := by
  unfold WorkerFunction.onHTML
  by_cases h : inScope u = true <;> cases hv : s.visited_links u <;>
    by_cases hk : k = u <;> simp [h, hv, hk, mapSet]

theorem feedLinks_snoc (s : CrawlState) (a : List GoString) (u : GoString) :
    feedLinks s (a ++ [u]) = WorkerFunction.onHTML (feedLinks s a) u := by
  simp [feedLinks, List.foldl_append]

theorem feedLinks_visited (s : CrawlState) (links : List GoString) (k : GoString) :
    (feedLinks s links).visited_links k
      = (s.visited_links k || (inScope k && decide (k ∈ links))) := by
  induction links using List.reverseRecOn with
  | nil => simp [feedLinks]
  | append_singleton a u ih =>
    rw [feedLinks_snoc, onHTML_visited, ih]
    by_cases hk : k = u
    · subst hk; cases s.visited_links k <;> cases inScope k <;> simp
    · cases s.visited_links k <;> cases inScope k <;> simp [hk]

theorem feedLinks_pushed (s : CrawlState) (links : List GoString) :
    ∃ pushed : List GoString,
      (feedLinks s links).UrlChannel = s.UrlChannel ++ pushed ∧
      pushed.Sublist links ∧ ∀ u ∈ pushed, inScope u = true := by
  induction links using List.reverseRecOn with
  | nil => exact ⟨[], by simp [feedLinks]⟩
  | append_singleton a u ih =>
    obtain ⟨pushed, hc, hsub, hall⟩ := ih
    rw [feedLinks_snoc, onHTML_channel, hc]
    by_cases h : inScope u = true ∧ (feedLinks s a).visited_links u = false
    · refine ⟨pushed ++ [u], by simp [h], hsub.append (List.Sublist.refl _), ?_⟩
      intro v hv
      rcases List.mem_append.1 hv with hv | hv
      · exact hall v hv
      · rw [List.mem_singleton.1 hv]; exact h.1
    · refine ⟨pushed, by simp [h], ?_, hall⟩
      exact hsub.trans (List.sublist_append_left a [u])

/-- Calls made one after another keep to the scope: whatever the visited set and the
content of the channel at the start, and whatever the sequence of links fed to the
callback of `WorkerFunction`, the channel afterwards is the channel before followed by the
URLs pushed; these are among the links fed, in their order, and each of them is non-empty
and begins with the scope prefix `https://www.w3.org/staff/`. -/
theorem scope_containment_sequential (s : CrawlState) (links : List GoString) :
    ∃ pushed : List GoString,
      (feedLinks s links).UrlChannel = s.UrlChannel ++ pushed ∧
      pushed.Sublist links ∧
      ∀ u ∈ pushed, u ≠ [] ∧ "https://www.w3.org/staff/".toList <+: u := by
  obtain ⟨pushed, hc, hsub, hall⟩ := feedLinks_pushed s links
  exact ⟨pushed, hc, hsub, fun u hu => (inScope_iff u).1 (hall u hu)⟩

theorem feedLinks_empty_step (pre : List GoString) (u : GoString) :
    (feedLinks CrawlState.empty (pre ++ [u])).UrlChannel
      = (feedLinks CrawlState.empty pre).UrlChannel
        ++ (if inScope u = true ∧ u ∉ pre then [u] else []) := by
  rw [feedLinks_snoc, onHTML_channel, feedLinks_visited]
  by_cases h : inScope u = true <;> by_cases hm : u ∈ pre <;> simp [h, hm, CrawlState.empty]

theorem feedLinks_empty_count (links : List GoString) (u : GoString) :
    (feedLinks CrawlState.empty links).UrlChannel.count u
      = if inScope u = true ∧ u ∈ links then 1 else 0 := by
  induction links using List.reverseRecOn with
  | nil => simp [feedLinks, CrawlState.empty]
  | append_singleton a v ih =>
    rw [feedLinks_empty_step, List.count_append, ih]
    by_cases hv : u = v
    · subst hv
      by_cases h : inScope u = true <;> by_cases hm : u ∈ a <;> simp [h, hm]
    · by_cases h : inScope u = true <;> by_cases hm : u ∈ a <;>
        by_cases h2 : inScope v = true ∧ v ∉ a <;> simp [h, hm, hv, h2, List.count_singleton]

/-- C2. Idempotent re-feed: starting from the empty visited set, the call of the callback
on a link `u` that follows the calls on `pre` pushes `u` exactly when `u` is in scope and
does not occur in `pre`, and pushes nothing otherwise; so after any sequence of links
every in-scope URL of the sequence is on the channel exactly once and no other URL is at
all; and feeding the same in-scope link twice gives one enqueue, made by the first call,
which marks the link visited. -/
theorem C2_idempotent_refeed :
    (∀ (pre : List GoString) (u : GoString),
      (feedLinks CrawlState.empty (pre ++ [u])).UrlChannel
        = (feedLinks CrawlState.empty pre).UrlChannel
          ++ (if inScope u = true ∧ u ∉ pre then [u] else [])) ∧
    (∀ (links : List GoString) (u : GoString),
      (feedLinks CrawlState.empty links).UrlChannel.count u
        = if inScope u = true ∧ u ∈ links then 1 else 0) ∧
    (∀ rest : GoString,
      (WorkerFunction.onHTML CrawlState.empty (scopePrefix ++ rest)).UrlChannel
        = [scopePrefix ++ rest] ∧
      (WorkerFunction.onHTML CrawlState.empty (scopePrefix ++ rest)).visited_links
        (scopePrefix ++ rest) = true ∧
      (feedLinks CrawlState.empty [scopePrefix ++ rest, scopePrefix ++ rest]).UrlChannel
        = [scopePrefix ++ rest]) := by
  refine ⟨feedLinks_empty_step, feedLinks_empty_count, ?_⟩
  intro rest
  have hin : inScope (scopePrefix ++ rest) = true := by
    rw [inScope_iff]
    exact ⟨by simp [scopePrefix], List.prefix_append _ _⟩
  have h1 := onHTML_channel CrawlState.empty (scopePrefix ++ rest)
  have h2 := onHTML_visited CrawlState.empty (scopePrefix ++ rest) (scopePrefix ++ rest)
  have h3 := feedLinks_empty_count [scopePrefix ++ rest, scopePrefix ++ rest]
  refine ⟨by simpa [hin, CrawlState.empty] using h1, by simpa [hin] using h2, ?_⟩
  have h4 := feedLinks_empty_step [scopePrefix ++ rest] (scopePrefix ++ rest)
  have h5 := feedLinks_empty_step [] (scopePrefix ++ rest)
  simp [hin, feedLinks, CrawlState.empty] at h4 h5 ⊢
  simpa [feedLinks, h5] using h4

/-- C4, as the claim states it, fails: the callback applied to the out-of-scope link
`https://other.org/c` prints a line. -/
theorem C4_counterexample :
    inScope "https://other.org/c".toList = false ∧
    (WorkerFunction.onHTML CrawlState.empty "https://other.org/c".toList).stdout
      ≠ CrawlState.empty.stdout := by
  decide

/-- C4, amended. For a link whose absolute form is empty or does not begin with the scope
prefix, the callback pushes nothing on the channel, leaves the visited set as it is, and
prints exactly one line, `Some error occured`. -/
theorem C4_out_of_scope_dropped (s : CrawlState) (absolute : GoString)
    (h : absolute = [] ∨ ¬ scopePrefix <+: absolute) :
    (WorkerFunction.onHTML s absolute).UrlChannel = s.UrlChannel ∧
    (WorkerFunction.onHTML s absolute).visited_links = s.visited_links ∧
    (WorkerFunction.onHTML s absolute).stdout = s.stdout ++ ["Some error occured".toList] := by
  have hin : inScope absolute = false := by
    cases hb : inScope absolute with
    | false => rfl
    | true =>
      have := (inScope_iff absolute).1 hb
      rcases h with h | h
      · exact absurd h this.1
      · exact absurd this.2 h
  simp [WorkerFunction.onHTML, hin, someErrorLine]

/-- C4, amended, at the link `https://other.org/c` and the empty state. -/
theorem C4_out_of_scope_dropped_witness :
    (WorkerFunction.onHTML CrawlState.empty "https://other.org/c".toList).UrlChannel = [] ∧
    (WorkerFunction.onHTML CrawlState.empty "https://other.org/c".toList).visited_links
      = CrawlState.empty.visited_links ∧
    (WorkerFunction.onHTML CrawlState.empty "https://other.org/c".toList).stdout
      = [] ++ ["Some error occured".toList] :=
  C4_out_of_scope_dropped CrawlState.empty "https://other.org/c".toList
    (Or.inr (by decide))

/-! ## The e-mail pattern -/

theorem repGreedy_some (cls : Char → Bool) (k : GoString → Option GoString) :
    ∀ (s : GoString) (min : Nat) (r : GoString), repGreedy cls k min s = some r →
      ∃ taken rest : GoString, s = taken ++ rest ∧ (∀ c ∈ taken, cls c = true) ∧
        min ≤ taken.length ∧ k rest = some r := by
  intro s
  induction s with
  | nil =>
    intro min r h
    simp only [repGreedy] at h
    split at h
    · next h0 => exact ⟨[], [], rfl, by simp, by simp [h0], h⟩
    · cases h
  | cons c cs ih =>
    intro min r h
    have stop : (if min = 0 then k (c :: cs) else none) = some r →
        ∃ taken rest : GoString, c :: cs = taken ++ rest ∧ (∀ c ∈ taken, cls c = true) ∧
          min ≤ taken.length ∧ k rest = some r := by
      intro h
      split at h
      · next h0 => exact ⟨[], c :: cs, rfl, by simp, by simp [h0], h⟩
      · cases h
    simp only [repGreedy] at h
    split at h
    · next hc =>
      split at h
      · next rest hr =>
        obtain ⟨taken, rest2, hs, hall, hmin, hk⟩ := ih (min - 1) rest hr
        refine ⟨c :: taken, rest2, by simp [hs], ?_, ?_, ?_⟩
        · intro x hx
          rcases List.mem_cons.1 hx with hx | hx
          · rw [hx]; exact hc
          · exact hall x hx
        · simp only [List.length_cons]; omega
        · cases h; exact hk
      · exact stop h
    · exact stop h

theorem matchHere_lit (c : Char) (ps : List Piece) (s r : GoString)
    (h : matchHere (Piece.lit c :: ps) s = some r) :
    ∃ rest : GoString, s = c :: rest ∧ matchHere ps rest = some r := by
  cases s with
  | nil => simp [matchHere] at h
  | cons x xs =>
    simp only [matchHere] at h
    split at h
    · next hx => exact ⟨xs, by rw [hx], h⟩
    · cases h

theorem matchHere_rep (cls : Char → Bool) (min : Nat) (ps : List Piece) (s : GoString) :
    matchHere (Piece.rep cls min :: ps) s = repGreedy cls (matchHere ps) min s := by
  cases s <;> rfl

theorem matchHere_email (s r : GoString) (h : matchHere emailRegExp s = some r) :
    ∃ m : GoString, s = m ++ r ∧ EmailShape m := by
  rw [emailRegExp, matchHere_rep] at h
  obtain ⟨l, s1, hs, hl, hlen, h⟩ := repGreedy_some _ _ _ _ _ h
  obtain ⟨s2, hs1, h⟩ := matchHere_lit _ _ _ _ h
  rw [matchHere_rep] at h
  obtain ⟨d, s3, hs2, hd, hdlen, h⟩ := repGreedy_some _ _ _ _ _ h
  obtain ⟨s4, hs3, h⟩ := matchHere_lit _ _ _ _ h
  rw [matchHere_rep] at h
  obtain ⟨t, s5, hs4, ht, htlen, h⟩ := repGreedy_some _ _ _ _ _ h
  simp only [matchHere, Option.some.injEq] at h
  refine ⟨l ++ '@' :: (d ++ '.' :: t), ?_, l, d, t, rfl, ?_, hl, ?_, hd, htlen, ht⟩
  · rw [hs, hs1, hs2, hs3, hs4, h]; simp
  · intro h0; rw [h0] at hlen; simp at hlen
  · intro h0; rw [h0] at hdlen; simp at hdlen

theorem EmailShape.ne_nil {m : GoString} (h : EmailShape m) : m ≠ [] := by
  obtain ⟨l, d, t, hm, hl, _⟩ := h
  rw [hm]
  cases l with
  | nil => exact absurd rfl hl
  | cons a l => simp

theorem EmailShape.count_at {m : GoString} (h : EmailShape m) : m.count '@' = 1 := by
  obtain ⟨l, d, t, hm, _, hl, _, hd, _, ht⟩ := h
  have h1 : l.count '@' = 0 :=
    List.count_eq_zero.2 fun hmem => absurd (hl _ hmem) (by decide)
  have h2 : d.count '@' = 0 :=
    List.count_eq_zero.2 fun hmem => absurd (hd _ hmem) (by decide)
  have h3 : t.count '@' = 0 :=
    List.count_eq_zero.2 fun hmem => absurd (ht _ hmem) (by decide)
  rw [hm]
  simp [List.count_append, List.count_cons, h1, h2, h3]

theorem weave_cons_gap (c : Char) (g : GoString) (gs ms : List GoString) :
    weave ((c :: g) :: gs) ms = c :: weave (g :: gs) ms := by
  cases ms <;> simp [weave]

theorem findAllFrom_email (s : GoString) : ∀ skip : Nat,
    ∃ gaps : List GoString,
      gaps.length = (findAllFrom emailRegExp skip s).length + 1 ∧
      weave gaps (findAllFrom emailRegExp skip s) = s.drop skip ∧
      ∀ m ∈ findAllFrom emailRegExp skip s, EmailShape m := by
  induction s with
  | nil => intro skip; exact ⟨[[]], by simp [findAllFrom, weave]⟩
  | cons c cs ih =>
    intro skip
    cases skip with
    | succ k =>
      obtain ⟨gaps, h1, h2, h3⟩ := ih k
      exact ⟨gaps, by simpa [findAllFrom] using h1, by simpa [findAllFrom] using h2,
        by simpa [findAllFrom] using h3⟩
    | zero =>
      cases hm : matchHere emailRegExp (c :: cs) with
      | none =>
        obtain ⟨gaps, h1, h2, h3⟩ := ih 0
        have hf : findAllFrom emailRegExp 0 (c :: cs) = findAllFrom emailRegExp 0 cs := by
          simp [findAllFrom, hm]
        rw [hf]
        cases gaps with
        | nil => simp at h1
        | cons g gs =>
          refine ⟨(c :: g) :: gs, by simpa using h1, ?_, h3⟩
          rw [weave_cons_gap, h2]; simp
      | some rest =>
        obtain ⟨m, hs, hshape⟩ := matchHere_email _ _ hm
        have hne := hshape.ne_nil
        have htake : (c :: cs).take ((c :: cs).length - rest.length) = m := by
          rw [hs]; simp
        have hf : findAllFrom emailRegExp 0 (c :: cs)
            = m :: findAllFrom emailRegExp (m.length - 1) cs := by
          simp only [findAllFrom, hm]; rw [htake]
        obtain ⟨gaps, h1, h2, h3⟩ := ih (m.length - 1)
        have hdrop : cs.drop (m.length - 1) = rest := by
          have hlen : 0 < m.length := List.length_pos.2 hne
          have : (c :: cs).drop (m.length - 1 + 1) = rest := by
            rw [Nat.sub_add_cancel hlen, hs]; simp
          simpa using this
        rw [hf]
        cases gaps with
        | nil => simp at h1
        | cons g gs =>
          refine ⟨[] :: g :: gs, by simpa using h1, ?_, ?_⟩
          · simp only [weave, List.nil_append]
            rw [h2, hdrop, List.drop_zero, hs]
          · intro x hx
            rcases List.mem_cons.1 hx with hx | hx
            · rw [hx]; exact hshape
            · exact h3 x hx

theorem weave_infix : ∀ (gaps ms : List GoString), gaps.length = ms.length + 1 →
    ∀ m ∈ ms, m <:+: weave gaps ms := by
  intro gaps ms
  induction ms generalizing gaps with
  | nil => intro _ m hm; cases hm
  | cons a ms ih =>
    intro hlen m hm
    cases gaps with
    | nil => simp at hlen
    | cons g gs =>
      simp only [weave]
      rcases List.mem_cons.1 hm with hm | hm
      · rw [hm]
        exact ⟨g, weave gs ms, by simp⟩
      · have := ih gs (by simpa using hlen) m hm
        exact this.trans (List.suffix_append (g ++ a) (weave gs ms)).isInfix
theorem repGreedy_complete (cls : Char → Bool) (k : GoString → Option GoString) :
    ∀ (taken rest : GoString) (min : Nat), (∀ c ∈ taken, cls c = true) →
      min ≤ taken.length → (k rest).isSome = true →
      (repGreedy cls k min (taken ++ rest)).isSome = true := by
  intro taken
  induction taken with
  | nil =>
    intro rest min _ hmin hk
    have h0 : min = 0 := by simpa using hmin
    subst h0
    cases rest with
    | nil => simpa [repGreedy] using hk
    | cons c cs =>
      simp only [List.nil_append, repGreedy]
      split
      · split
        · rfl
        · simpa using hk
      · simpa using hk
  | cons c t ih =>
    intro rest min hall hmin hk
    have hc : cls c = true := hall c (List.mem_cons_self _ _)
    have hrec := ih rest (min - 1) (fun x hx => hall x (List.mem_cons_of_mem _ hx))
      (by simp only [List.length_cons] at hmin; omega) hk
    simp only [List.cons_append, repGreedy, hc, if_true]
    cases hr : repGreedy cls k (min - 1) (t ++ rest) with
    | some r => rfl
    | none => rw [hr] at hrec; cases hrec

/-- The matcher finds a match wherever the text starts with a string of the shape of an
address. -/
theorem matchHere_email_complete (m rest : GoString) (h : EmailShape m) :
    (matchHere emailRegExp (m ++ rest)).isSome = true := by
  obtain ⟨l, d, t, hm, hl0, hl, hd0, hd, ht2, ht⟩ := h
  have hlpos : 1 ≤ l.length := List.length_pos.2 hl0
  have hdpos : 1 ≤ d.length := List.length_pos.2 hd0
  have e : m ++ rest = l ++ ('@' :: (d ++ ('.' :: (t ++ rest)))) := by rw [hm]; simp
  rw [e, emailRegExp, matchHere_rep]
  apply repGreedy_complete _ _ l _ 1 hl hlpos
  simp only [matchHere, if_true]
  apply repGreedy_complete _ _ d _ 1 hd hdpos
  simp only [matchHere, if_true]
  apply repGreedy_complete _ _ t _ 2 ht ht2
  cases rest <;> rfl

theorem findAllFrom_complete (pre m post : GoString) (h : EmailShape m) :
    findAllFrom emailRegExp 0 (pre ++ (m ++ post)) ≠ [] := by
  induction pre with
  | nil =>
    have hs := matchHere_email_complete m post h
    have hne := h.ne_nil
    cases hm : m with
    | nil => exact absurd hm hne
    | cons c cs =>
      rw [hm] at hs
      simp only [List.nil_append, List.cons_append] at hs ⊢
      cases hr : matchHere emailRegExp (c :: (cs ++ post)) with
      | none => rw [hr] at hs; cases hs
      | some r => simp [findAllFrom, hr]
  | cons c cs ih =>
    simp only [List.cons_append]
    cases hr : matchHere emailRegExp (c :: (cs ++ (m ++ post))) with
    | none => simpa [findAllFrom, hr] using ih
    | some r => simp [findAllFrom, hr]

/-- The scan returns a match exactly when some part of the text has the shape of an
address. -/
theorem FindAllString_ne_nil_iff (page_text : GoString) :
    FindAllString emailRegExp page_text ≠ [] ↔
      ∃ m : GoString, EmailShape m ∧ m <:+: page_text := by
  constructor
  · intro hne
    obtain ⟨gaps, hlen, hw, hshape⟩ := findAllFrom_email page_text 0
    rw [List.drop_zero] at hw
    cases hres : findAllFrom emailRegExp 0 page_text with
    | nil => exact absurd hres hne
    | cons m ms =>
      have hm : m ∈ findAllFrom emailRegExp 0 page_text := by rw [hres]; simp
      have hinf := weave_infix gaps _ hlen m hm
      rw [hw] at hinf
      exact ⟨m, hshape m hm, hinf⟩
  · rintro ⟨m, hshape, pre, post, rfl⟩
    have := findAllFrom_complete pre m post hshape
    simpa [FindAllString] using this

theorem weave_spans : ∀ (ms gaps : List GoString) (pre text : GoString),
    gaps.length = ms.length + 1 → (∀ m ∈ ms, m ≠ []) → text = pre ++ weave gaps ms →
    ∃ spans : List (Nat × Nat),
      List.Forall₂ (fun sp m => sp.1 < sp.2 ∧ sp.2 ≤ text.length ∧
        m = (text.drop sp.1).take (sp.2 - sp.1)) spans ms ∧
      List.Pairwise (fun a b => a.2 ≤ b.1) spans ∧
      List.Pairwise (fun a b => a.1 < b.1) spans ∧
      ∀ sp ∈ spans, pre.length ≤ sp.1 := by
  intro ms
  induction ms with
  | nil =>
    intro gaps pre text _ _ _
    exact ⟨[], List.Forall₂.nil, List.Pairwise.nil, List.Pairwise.nil, by simp⟩
  | cons a ms ih =>
    intro gaps pre text hlen hne htext
    cases gaps with
    | nil => simp at hlen
    | cons g gs =>
      have ha : a ≠ [] := hne a (List.mem_cons_self _ _)
      have hapos : 0 < a.length := List.length_pos.2 ha
      have htext2 : text = (pre ++ g ++ a) ++ weave gs ms := by
        rw [htext]; simp [weave]
      obtain ⟨spans, h1, h2, h2s, h3⟩ := ih gs (pre ++ g ++ a) text (by simpa using hlen)
        (fun m hm => hne m (List.mem_cons_of_mem _ hm)) htext2
      refine ⟨(pre.length + g.length, pre.length + g.length + a.length) :: spans,
        List.Forall₂.cons ⟨?_, ?_, ?_⟩ h1, List.Pairwise.cons ?_ h2,
        List.Pairwise.cons ?_ h2s, ?_⟩
      · show pre.length + g.length < pre.length + g.length + a.length
        omega
      · show pre.length + g.length + a.length ≤ text.length
        rw [htext2]; simp only [List.length_append]; omega
      · show a = (text.drop (pre.length + g.length)).take
          (pre.length + g.length + a.length - (pre.length + g.length))
        have hd : text.drop (pre.length + g.length) = a ++ weave gs ms := by
          have : text = (pre ++ g) ++ (a ++ weave gs ms) := by rw [htext2]; simp
          rw [this, ← List.length_append, List.drop_left]
        rw [hd, Nat.add_sub_cancel_left, List.take_left]
      · intro b hb
        have := h3 b hb
        simp only [List.length_append] at this
        exact this
      · intro b hb
        have := h3 b hb
        simp only [List.length_append] at this
        show pre.length + g.length < b.1
        omega
      · intro sp hsp
        rcases List.mem_cons.1 hsp with hsp | hsp
        · rw [hsp]; show pre.length ≤ pre.length + g.length; omega
        · have := h3 sp hsp
          simp only [List.length_append] at this
          omega

/-- C3. The e-mail example: the pattern of `emailFinder`, applied with `FindAllString` to
the text `Contact: a.b@example.com or x@y.co, invalid@, @nodomain`, gives the two
addresses `a.b@example.com` and `x@y.co`, in that order, and nothing else; no match is
`invalid@` or `@nodomain` or a part of either. -/
theorem C3_email_example :
    FindAllString emailRegExp
        "Contact: a.b@example.com or x@y.co, invalid@, @nodomain".toList
      = ["a.b@example.com".toList, "x@y.co".toList] ∧
    ∀ m ∈ FindAllString emailRegExp
        "Contact: a.b@example.com or x@y.co, invalid@, @nodomain".toList,
      ¬ m <:+: "invalid@".toList ∧ ¬ m <:+: "@nodomain".toList := by
  decide

/-- C8, as the claim states it, fails: on the text `x@y.co`, which has one match, the
first line printed is not `Emails Found:`; it is `Emails Found: `, with a blank after the
colon. -/
theorem C8_counterexample :
    FindAllString emailRegExp "x@y.co".toList = ["x@y.co".toList] ∧
    emailFinder.onHTML [] "x@y.co".toList ≠ ["Emails Found:".toList, "x@y.co".toList] ∧
    emailFinder.onHTML [] "x@y.co".toList = ["Emails Found: ".toList, "x@y.co".toList] := by
  decide

/-- C8, amended. For every page text: when the scan finds no match, the callback of
`emailFinder` prints nothing; when it finds `k ≥ 1` matches it prints `k + 1` lines, the
header `Emails Found: ` (the colon followed by one blank) first, then the matches, one a
line, in the order of the scan, duplicates included. -/
theorem C8_email_output_format (stdout : List GoString) (page_text : GoString) :
    emailFinder.onHTML stdout page_text
      = stdout ++ (if FindAllString emailRegExp page_text = [] then []
          else "Emails Found: ".toList :: FindAllString emailRegExp page_text) ∧
    (emailFinder.onHTML stdout page_text).length
      = stdout.length + (if FindAllString emailRegExp page_text = [] then 0
          else (FindAllString emailRegExp page_text).length + 1) := by
  unfold emailFinder.onHTML
  cases h : FindAllString emailRegExp page_text <;> simp [emailsFoundLine]

/-- C10. Shape and order of the scan: for every page text the matches returned lie in the
text at spans `[start, end)` which are non-empty, within the text, and each ending before
the next starts (so they do not overlap and their starts increase strictly); each match
has a non-empty local part over `[a-zA-Z0-9._%+-]`, exactly one `@`, and ends with a dot
followed by two ASCII letters or more; a text without `@` has no match. -/
theorem C10_scanner_shape (page_text : GoString) :
    (∃ spans : List (Nat × Nat),
      List.Forall₂ (fun sp m => sp.1 < sp.2 ∧ sp.2 ≤ page_text.length ∧
        m = (page_text.drop sp.1).take (sp.2 - sp.1))
        spans (FindAllString emailRegExp page_text) ∧
      List.Pairwise (fun a b => a.2 ≤ b.1) spans ∧
      List.Pairwise (fun a b => a.1 < b.1) spans) ∧
    (∀ m ∈ FindAllString emailRegExp page_text, EmailShape m ∧ m.count '@' = 1) ∧
    ('@' ∉ page_text → FindAllString emailRegExp page_text = []) := by
  obtain ⟨gaps, hlen, hw, hshape⟩ := findAllFrom_email page_text 0
  rw [List.drop_zero] at hw
  refine ⟨?_, fun m hm => ⟨hshape m hm, (hshape m hm).count_at⟩, ?_⟩
  · obtain ⟨spans, h1, h2, h2s, _⟩ := weave_spans _ gaps [] page_text hlen
      (fun m hm => (hshape m hm).ne_nil) (by rw [List.nil_append]; exact hw.symm)
    exact ⟨spans, h1, h2, h2s⟩
  · intro hno
    cases hres : FindAllString emailRegExp page_text with
    | nil => rfl
    | cons m ms =>
      exfalso
      have hm : m ∈ findAllFrom emailRegExp 0 page_text := by
        have : m ∈ FindAllString emailRegExp page_text := by rw [hres]; simp
        exact this
      have hinf := weave_infix gaps _ hlen m hm
      rw [hw] at hinf
      have hcount := (hshape m hm).count_at
      have hmem : '@' ∈ m := List.count_pos_iff.1 (by omega)
      exact hno (hinf.subset hmem)

/-- C10 at the text `write to x@y.co` and at the text `no address here`. -/
theorem C10_scanner_shape_witness :
    (∀ m ∈ FindAllString emailRegExp "write to x@y.co".toList,
      EmailShape m ∧ m.count '@' = 1) ∧
    FindAllString emailRegExp "no address here".toList = [] :=
  ⟨(C10_scanner_shape "write to x@y.co".toList).2.1,
   (C10_scanner_shape "no address here".toList).2.2 (by decide)⟩

/-! ## The counter of `wait_group` -/

theorem countP_set (p : WorkerPc → Bool) : ∀ (l : List WorkerPc) (i : Nat) (a b : WorkerPc),
    l[i]? = some a →
    (l.set i b).countP p + (if p a then 1 else 0) = l.countP p + (if p b then 1 else 0) := by
  intro l
  induction l with
  | nil => intro i a b h; simp at h
  | cons x xs ih =>
    intro i a b h
    cases i with
    | zero =>
      simp only [List.getElem?_cons_zero, Option.some.injEq] at h
      subst h
      simp only [List.set_cons_zero, List.countP_cons]
      omega
    | succ j =>
      simp only [List.getElem?_cons_succ] at h
      have := ih j a b h
      simp only [List.set_cons_succ, List.countP_cons]
      omega

theorem stepVisit_frame (s : Sys) (v : VisitPc) (r : Sys × VisitPc)
    (h : stepVisit s v = some r) :
    r.1.wait_group = s.wait_group ∧ r.1.workers = s.workers := by
  cases v with
  | request url =>
    simp only [stepVisit] at h
    split at h
    · cases h; exact ⟨rfl, rfl⟩
    · split at h <;> (cases h; exact ⟨rfl, rfl⟩)
  | anchors todo text =>
    cases todo <;> (simp only [stepVisit] at h; cases h; exact ⟨rfl, rfl⟩)
  | line74 todo text =>
    simp only [stepVisit] at h
    split at h <;> (cases h; exact ⟨rfl, rfl⟩)
  | line75 todo text =>
    simp only [stepVisit] at h
    split at h <;> (cases h; exact ⟨rfl, rfl⟩)
  | line76 todo text => simp only [stepVisit] at h; cases h; exact ⟨rfl, rfl⟩
  | line77 todo text =>
    simp only [stepVisit] at h
    split at h
    · cases h; exact ⟨rfl, rfl⟩
    · split at h
      · cases h; exact ⟨rfl, rfl⟩
      · cases h
  | line80 todo text => simp only [stepVisit] at h; cases h; exact ⟨rfl, rfl⟩
  | returned => simp [stepVisit] at h

theorem stepMain_frame (s s2 : Sys) (h : stepMain s = some s2) :
    s2.wait_group = s.wait_group ∧ s2.workers = s.workers := by
  unfold stepMain at h
  split at h
  · cases h; exact ⟨rfl, rfl⟩
  · cases hv : stepVisit s ‹VisitPc› with
    | none => simp [hv] at h
    | some r =>
      simp only [hv, Option.map_some'] at h
      cases h
      exact stepVisit_frame _ _ _ hv
  · split at h
    · cases h; exact ⟨rfl, rfl⟩
    · cases h
  · cases h; exact ⟨rfl, rfl⟩
  · cases h

theorem stepWatcher_frame (s s2 : Sys) (h : stepWatcher s = some s2) :
    s2.wait_group = s.wait_group ∧ s2.workers = s.workers := by
  unfold stepWatcher at h
  split at h
  · cases h
  · split at h
    · cases h; exact ⟨rfl, rfl⟩
    · cases h
  · split at h <;> (cases h; exact ⟨rfl, rfl⟩)
  · cases h

theorem stepWorker_balance (s s2 : Sys) (i : Nat) (h : stepWorker s i = some s2) :
    s2.wait_group + (s.inFlight : Int) = s.wait_group + (s2.inFlight : Int) := by
  unfold stepWorker at h
  split at h
  · cases h
  · next hi =>
    split at h
    · cases h
      have := countP_set WorkerPc.inFlight s.workers i _ (WorkerPc.add ‹GoString›) hi
      simp only [Sys.inFlight, WorkerPc.inFlight, Bool.false_eq_true, if_true, if_false] at this ⊢
      omega
    · split at h
      · cases h
        have := countP_set WorkerPc.inFlight s.workers i _ WorkerPc.exited hi
        simp only [Sys.inFlight, WorkerPc.inFlight, Bool.false_eq_true, if_true, if_false] at this ⊢
        omega
      · cases h
  · next hi =>
    cases h
    have := countP_set WorkerPc.inFlight s.workers i _ (WorkerPc.println ‹GoString›) hi
    simp only [Sys.inFlight, WorkerPc.inFlight, Bool.false_eq_true, if_true, if_false] at this ⊢
    omega
  · next hi =>
    cases h
    have := countP_set WorkerPc.inFlight s.workers i _
      (WorkerPc.scrape (VisitPc.request ‹GoString›)) hi
    simp only [Sys.inFlight, WorkerPc.inFlight, Bool.false_eq_true, if_true, if_false] at this ⊢
    omega
  · next hi =>
    cases h
    have := countP_set WorkerPc.inFlight s.workers i _ WorkerPc.recv hi
    simp only [Sys.inFlight, WorkerPc.inFlight, Bool.false_eq_true, if_true, if_false] at this ⊢
    omega
  · next v hne hi =>
    cases hv : stepVisit s v with
    | none => simp [hv] at h
    | some r =>
      simp only [hv, Option.map_some'] at h
      cases h
      obtain ⟨h1, h2⟩ := stepVisit_frame _ _ _ hv
      have hi2 : r.1.workers[i]? = some (WorkerPc.scrape v) := by rw [h2]; exact hi
      have := countP_set WorkerPc.inFlight r.1.workers i _ (WorkerPc.scrape r.2) hi2
      simp only [Sys.inFlight, WorkerPc.inFlight, Bool.false_eq_true, if_true, if_false] at this ⊢
      rw [h2] at this
      rw [h1, h2]
      omega
  · cases h

theorem stepWorker_counter (s s2 : Sys) (i : Nat) (h : stepWorker s i = some s2) :
    s2.wait_group = s.wait_group +
      (match s.workers[i]? with
        | some (WorkerPc.add _) => 1
        | some (WorkerPc.scrape VisitPc.returned) => -1
        | _ => 0) := by
  unfold stepWorker at h
  split at h
  · cases h
  · next hi =>
    rw [hi]
    split at h
    · cases h; simp
    · split at h
      · cases h; simp
      · cases h
  · next hi => cases h; rw [hi]
  · next hi => cases h; rw [hi]; simp
  · next hi => cases h; rw [hi]; rfl
  · next v hne hi =>
    cases hv : stepVisit s v with
    | none => simp [hv] at h
    | some r =>
      simp only [hv, Option.map_some'] at h
      cases h
      rw [hi]
      have := (stepVisit_frame _ _ _ hv).1
      cases v <;> first | exact absurd rfl (hne) | simpa using this
  · cases h

theorem stepWorker_counter_total (s : Sys) (i : Nat) :
    ((stepWorker s i).getD s).wait_group = s.wait_group +
      (match s.workers[i]? with
        | some (WorkerPc.add _) => 1
        | some (WorkerPc.scrape VisitPc.returned) => -1
        | _ => 0) := by
  cases h : stepWorker s i with
  | some s2 => exact stepWorker_counter s s2 i h
  | none =>
    simp only [Option.getD_none]
    unfold stepWorker at h
    split at h
    · next hi => rw [hi]; simp
    · next hi => rw [hi]; simp
    · cases h
    · cases h
    · cases h
    · next v hne hi =>
      rw [hi]
      cases v <;> first | exact absurd rfl hne | simp
    · next hi => rw [hi]; simp

theorem next_balance (s : Sys) (t : Thread) :
    (next s t).wait_group + (s.inFlight : Int) = s.wait_group + ((next s t).inFlight : Int) := by
  unfold next
  cases h : step s t with
  | none => simp
  | some s2 =>
    simp only [Option.getD_some]
    unfold step at h
    split at h
    · cases h
    · cases t with
      | main =>
        obtain ⟨h1, h2⟩ := stepMain_frame _ _ h
        simp only [Sys.inFlight, h1, h2]
      | watcher =>
        obtain ⟨h1, h2⟩ := stepWatcher_frame _ _ h
        simp only [Sys.inFlight, h1, h2]
      | worker i => exact stepWorker_balance _ _ _ h

theorem run_balance (sched : List Thread) : ∀ s : Sys,
    (run s sched).wait_group + (s.inFlight : Int)
      = s.wait_group + ((run s sched).inFlight : Int) := by
  induction sched with
  | nil => intro s; rfl
  | cons t ts ih =>
    intro s
    have h1 := ih (next s t)
    have h2 := next_balance s t
    have hr : run s (t :: ts) = run (next s t) ts := rfl
    rw [hr]
    omega

theorem init_inFlight (c : Collector) (url : GoString) (n : Nat) :
    (Sys.init c url n).inFlight = 0 := by
  simp [Sys.inFlight, Sys.init, List.countP_eq_zero, WorkerPc.inFlight]

/-- C9. Worker accounting: a step of a goroutine of `createWorkers` adds one to the
counter of `wait_group` when it is the `Add(1)` of line 99 (which precedes the call of
`scrapeUrl`), takes one off when it is the deferred `Done()` after `c.Visit` has returned,
and leaves the counter as it is otherwise; along any schedule from any state the counter
moves as the number of workers between their `Add` and their `Done` does, so an iteration
of a worker leaves it at its prior value; in every state reached from the start of
`execute` the counter is that number, hence never negative; and no step of `main` (the
seed visit included) changes it. -/
theorem C9_worker_accounting :
    (∀ (s : Sys) (i : Nat),
      ((stepWorker s i).getD s).wait_group = s.wait_group +
        (match s.workers[i]? with
          | some (WorkerPc.add _) => 1
          | some (WorkerPc.scrape VisitPc.returned) => -1
          | _ => 0)) ∧
    (∀ (s : Sys) (sched : List Thread),
      (run s sched).wait_group + (s.inFlight : Int)
        = s.wait_group + ((run s sched).inFlight : Int)) ∧
    (∀ (c : Collector) (url : GoString) (n : Nat) (sched : List Thread),
      (run (Sys.init c url n) sched).wait_group
        = ((run (Sys.init c url n) sched).inFlight : Int) ∧
      0 ≤ (run (Sys.init c url n) sched).wait_group) ∧
    (∀ s : Sys, (next s Thread.main).wait_group = s.wait_group) := by
  refine ⟨stepWorker_counter_total, fun s sched => run_balance sched s, ?_, ?_⟩
  · intro c url n sched
    have h := run_balance sched (Sys.init c url n)
    rw [init_inFlight] at h
    have h0 : (Sys.init c url n).wait_group = 0 := rfl
    constructor <;> omega
  · intro s
    unfold next
    cases h : step s Thread.main with
    | none => rfl
    | some s2 =>
      unfold step at h
      split at h
      · cases h
      · exact (stepMain_frame _ _ h).1

/-! ## Runs of the scheduler -/

set_option maxRecDepth 100000

/-- C5, on the code. In the scenario run with one worker, the `a` function called on the
link of `B` back to the seed finds the seed absent from `visited_links` (the seed visit of
line 128 never enters it) and sends it on the channel: after the seed visit and the visit
of `B` the channel holds the seed.  The worker then receives the seed, prints it and calls
`c.Visit` on it.  With the collector of `colly.NewCollector()` that call makes no request,
so the requests are the seed and `B` and one block of e-mails is printed; with a collector
that allows revisits the seed is requested and its e-mails printed a second time.  In
both cases the out-of-scope link makes the program print `Some error occured`. -/
theorem C5_seed_enqueued_again :
    (∀ revisit : Bool,
      (run (Sys.init (scenario revisit) base_url 1) seedThenB).UrlChannel = [base_url] ∧
      (run (Sys.init (scenario revisit) base_url 1) seedThenB).fetched = [base_url, pageB]) ∧
    (run (Sys.init (scenario false) base_url 1) sequentialSchedule).fetched
      = [base_url, pageB] ∧
    (run (Sys.init (scenario false) base_url 1) sequentialSchedule).stdout
      = ["Some error occured".toList, "Emails Found: ".toList, "foo@bar.com".toList,
         pageB, base_url, "Completed all tasks".toList] ∧
    (run (Sys.init (scenario true) base_url 1) sequentialSchedule).fetched
      = [base_url, pageB, base_url] ∧
    (run (Sys.init (scenario true) base_url 1) sequentialSchedule).stdout
      = ["Some error occured".toList, "Emails Found: ".toList, "foo@bar.com".toList,
         pageB, base_url,
         "Some error occured".toList, "Emails Found: ".toList, "foo@bar.com".toList,
         "Completed all tasks".toList] := by
  refine ⟨fun revisit => ?_, ?_⟩
  · cases revisit <;> decide
  · decide

/-- C6, on the code. With the twelve workers of `createWorkers` and the web of the
scenario: when no worker has executed `Add(1)` by the time the seed visit returns, the
counter is zero, so the goroutine of line 130 closes the channel while `B` is still in it
and `main` prints `Completed all tasks` and returns, `B` never requested; and when a
worker has received `B` but not yet executed `Add(1)` at that time, the channel is closed
under it and its send of line 77 comes after the close, which is a panic. -/
theorem C6_premature_close :
    (run (Sys.init (scenario false) base_url num_of_workers) earlyCloseSchedule).closed
      = true ∧
    (run (Sys.init (scenario false) base_url num_of_workers) earlyCloseSchedule).UrlChannel
      = [pageB] ∧
    (run (Sys.init (scenario false) base_url num_of_workers) earlyCloseSchedule).stdout
      = ["Some error occured".toList, "Emails Found: ".toList, "foo@bar.com".toList,
         "Completed all tasks".toList] ∧
    (run (Sys.init (scenario false) base_url num_of_workers) earlyCloseSchedule).fetched
      = [base_url] ∧
    (run (Sys.init (scenario false) base_url num_of_workers) earlyCloseSchedule).main
      = MainPc.exited ∧
    (run (Sys.init (scenario false) base_url num_of_workers) sendAfterCloseSchedule).closed
      = true ∧
    (run (Sys.init (scenario false) base_url num_of_workers) sendAfterCloseSchedule).workers[0]?
      = some (WorkerPc.scrape (VisitPc.line77 [] "page b".toList)) ∧
    (run (Sys.init (scenario false) base_url num_of_workers) sendAfterCloseSchedule).panicked
      = true := by
  decide

/-- C7, on the code. Two workers which run the `a` function on links to the same in-scope
URL `U` at the same time can both pass the test of line 75 before either executes the
assignment of line 76; both then send `U`: the channel holds `U` twice, and `U` is
received and printed twice. -/
theorem C7_check_then_insert_race :
    ∀ revisit : Bool,
      inScope pageU = true ∧
      (run (Sys.init (raceCollector revisit) base_url num_of_workers) raceSchedule).UrlChannel
        = [pageU, pageU] ∧
      (run (Sys.init (raceCollector revisit) base_url num_of_workers) raceDispatch).stdout
        = [pageB, pageD, pageU, pageU] := by
  intro revisit
  cases revisit <;> decide

/-! ## The callback in the scheduler -/

/-- When no other goroutine moves in between, and the channel is open and not full, the
steps of the `a` function on one link (five at most) change the visited set, the channel
and the output as `WorkerFunction.onHTML` does. -/
theorem callback_uninterrupted (s : Sys) (link : GoString) (todo : List GoString)
    (text : GoString) (hopen : s.closed = false)
    (hroom : s.UrlChannel.length < channelCapacity) :
    ∃ (n : Nat) (s2 : Sys), n ≤ 5 ∧
      visitSteps n s (VisitPc.anchors (link :: todo) text)
        = some (s2, VisitPc.anchors todo text) ∧
      s2.crawl = WorkerFunction.onHTML s.crawl link := by
  by_cases hin : inScope link = true
  · cases hv : s.visited_links link with
    | true =>
      refine ⟨3, { s with absolute := link }, by omega, ?_, ?_⟩
      · simp [visitSteps, stepVisit, hin, hv]
      · simp [Sys.crawl, WorkerFunction.onHTML, hin, hv]
    | false =>
      refine ⟨5, { s with absolute := link,
                          visited_links := mapSet s.visited_links link,
                          UrlChannel := s.UrlChannel ++ [link] }, by omega, ?_, ?_⟩
      · simp [visitSteps, stepVisit, hin, hv, hopen, hroom]
      · simp [Sys.crawl, WorkerFunction.onHTML, hin, hv]
  · refine ⟨3, { s with absolute := link, stdout := s.stdout ++ [someErrorLine] },
      by omega, ?_, ?_⟩
    · simp [visitSteps, stepVisit, hin]
    · simp [Sys.crawl, WorkerFunction.onHTML, hin]

/-- C1, on the code. The variable `absolute` of line 69 is one variable for all calls of
the `a` function, and the workers of `createWorkers` call that function at the same time:
a worker that has passed the tests of lines 74 and 75 on the in-scope link `U` and is then
overtaken by another worker's assignment of line 72 marks and sends the other worker's
link, here `https://other.org/c`, which does not begin with the scope prefix: the channel
holds that out-of-scope URL, and a worker then receives it, prints it and requests it. -/
theorem C1_out_of_scope_pushed :
    inScope urlC = false ∧
    ¬ "https://www.w3.org/staff/".toList <+: urlC ∧
    (run (Sys.init { web := mixedWeb, AllowURLRevisit := false } base_url num_of_workers)
      sharedVariableSchedule).UrlChannel = [urlC] ∧
    (run (Sys.init { web := mixedWeb, AllowURLRevisit := false } base_url num_of_workers)
      sharedVariableSchedule).visited_links urlC = true ∧
    (run (Sys.init { web := mixedWeb, AllowURLRevisit := false } base_url num_of_workers)
      sharedVariableDispatch).stdout = [pageB, pageD, urlC] ∧
    (run (Sys.init { web := mixedWeb, AllowURLRevisit := false } base_url num_of_workers)
      sharedVariableDispatch).fetched = [base_url, pageB, pageD, urlC] := by
  decide

end Scraper
